import Mathlib

/-
  Shallow embedding of src/src/network/Network.cpp (voxelcore network core):
  the SocketConnection byte-stream state machine, the CurlRequests HTTP
  request queue, and the Network facade registry sweep. Machine integers
  are modelled as Nat/Int; payload bytes are modelled as Nat values.
  External transport and cURL behaviour enters through explicit outcome
  and oracle parameters, so every definition is executable.
-/

namespace network

/-- Connection state machine (ConnectionState in Network.hpp). -/
inductive ConnectionState
  | INITIAL
  | CONNECTING
  | CONNECTED
  | CLOSED
deriving DecidableEq, Repr

/-- The fields of SocketConnection that its byte-level operations read and
write: the upload/download accumulators, the atomic state and the inbound
queue readBatch (a std::vector of bytes, FIFO at the front). -/
structure SocketConnection where
  totalUpload : Nat
  totalDownload : Nat
  state : ConnectionState
  readBatch : List Nat
deriving DecidableEq, Repr

namespace SocketConnection

/-- SocketConnection.recv: result is the updated connection, the int
return value, and the bytes copied into the caller buffer. Mirrors
Network.cpp lines 445-454: if state is not CONNECTED and readBatch is
empty, return -1; otherwise copy min(readBatch.size, length) bytes from
the front, erase them, and return the count. -/
def recv (c : SocketConnection) (length : Nat) :
    SocketConnection × Int × List Nat :=
  if c.state ≠ ConnectionState.CONNECTED ∧ c.readBatch = [] then
    (c, -1, [])
  else
    let size := min c.readBatch.length length
    ({ c with readBatch := c.readBatch.drop size },
     (size : Int), c.readBatch.take size)

/-- SocketConnection.close(discardAll): under the lock, first clear the
inbound queue when discardAll is set, then return early if already CLOSED,
else transition to CLOSED (Network.cpp lines 520-538; the socket shutdown
and thread join have no effect on the modelled fields). -/
def close (c : SocketConnection) (discardAll : Bool) : SocketConnection :=
  let c1 := if discardAll then { c with readBatch := [] } else c
  if c1.state = ConnectionState.CLOSED then c1
  else { c1 with state := ConnectionState.CLOSED }

/-- Inbound buffer capacity: MAX_INBUF = 1 << 20 (Network.cpp line 381). -/
def MAX_INBUF : Nat := 1 <<< 20

/-- Outcome of one recvsocket call in the receive loop, as classified by
the code: a zero return (peer closed), a transient error that is retried
(EINTR/EAGAIN/EWOULDBLOCK), any other error (fatal, loop exits), or a
batch of received bytes. -/
inductive RecvOutcome
  | peerClosed
  | transientErr
  | fatalErr
  | bytes (data : List Nat)
deriving DecidableEq, Repr

/-- One iteration of SocketConnection.listenLoop (Network.cpp lines
348-409), including the state = CLOSED assignment performed on loop exit.
When the loop guard fails (state no longer CONNECTED) nothing happens. -/
def listenStep (c : SocketConnection) (r : RecvOutcome) : SocketConnection :=
  if c.state ≠ ConnectionState.CONNECTED then c
  else
    match r with
    | RecvOutcome.peerClosed => { c with state := ConnectionState.CLOSED }
    | RecvOutcome.transientErr => c
    | RecvOutcome.fatalErr => { c with state := ConnectionState.CLOSED }
    | RecvOutcome.bytes data =>
      if c.readBatch.length + data.length > MAX_INBUF then
        { c with state := ConnectionState.CLOSED }
      else
        { c with readBatch := c.readBatch ++ data,
                 totalDownload := c.totalDownload + data.length }

/-- The receive loop run over a sequence of transport outcomes. -/
def listenRun (c : SocketConnection) : List RecvOutcome → SocketConnection
  | [] => c
  | r :: rs => listenRun (listenStep c r) rs

/-- Outcome of one sendsocket call inside SocketConnection.send: a
transient error retried after a yield (EINTR/EAGAIN/EWOULDBLOCK), any
other socket error (fatal), or a nonnegative byte count, where zero means
the remote closed. -/
inductive SendOutcome
  | transient
  | fatalError
  | wrote (n : Nat)
deriving DecidableEq, Repr

/-- The while-loop of SocketConnection.send (Network.cpp lines 460-511).
`total` counts the bytes flushed so far. A `wrote n` outcome is clamped to
the bytes still unsent, since the transport never reports more bytes
written than were passed to it. Returns none when the outcome list is
exhausted with bytes still unsent (the real loop would still be blocked
inside sendsocket). -/
def sendLoop (c : SocketConnection) (length : Nat) :
    Nat → List SendOutcome → Option (SocketConnection × Int)
  | total, [] =>
    if total ≥ length then
      some ({ c with totalUpload := c.totalUpload + total }, (total : Int))
    else none
  | total, o :: rest =>
    if total ≥ length then
      some ({ c with totalUpload := c.totalUpload + total }, (total : Int))
    else
      match o with
      | SendOutcome.transient => sendLoop c length total rest
      | SendOutcome.fatalError => some (close c false, -1)
      | SendOutcome.wrote 0 => some (close c false, -1)
      | SendOutcome.wrote (n + 1) =>
        sendLoop c length (total + min (n + 1) (length - total)) rest

/-- SocketConnection.send (Network.cpp lines 455-512): fail with -1 when
not CONNECTED, otherwise run the write loop; on full success totalUpload
grows by the byte count and the count is returned. -/
def send (c : SocketConnection) (length : Nat) (outs : List SendOutcome) :
    Option (SocketConnection × Int) :=
  if c.state ≠ ConnectionState.CONNECTED then some (c, -1)
  else sendLoop c length 0 outs

/-- SocketConnection.available: current inbound queue size as int. -/
def available (c : SocketConnection) : Int :=
  (c.readBatch.length : Int)

/-- SocketConnection.pullUpload: drain-and-reset of the upload counter. -/
def pullUpload (c : SocketConnection) : SocketConnection × Nat :=
  ({ c with totalUpload := 0 }, c.totalUpload)

/-- SocketConnection.pullDownload: drain-and-reset of the download
counter. -/
def pullDownload (c : SocketConnection) : SocketConnection × Nat :=
  ({ c with totalDownload := 0 }, c.totalDownload)

/-- SocketConnection.getState. -/
def getState (c : SocketConnection) : ConnectionState :=
  c.state

/-- A connection with both traffic accumulators drained to zero, as left
behind by pullDownload followed by pullUpload. -/
def drainConn (c : SocketConnection) : SocketConnection :=
  { c with totalUpload := 0, totalDownload := 0 }

end SocketConnection

/-- HTTP request method (enum class RequestType). -/
inductive RequestType
  | GET
  | POST
deriving DecidableEq, Repr

/-- struct Request (Network.cpp lines 69-77). The std::function callbacks
onResponse/onReject are modelled by an identity tag `rid`: firing a
callback is recorded as an event carrying that tag. -/
structure Request where
  rtype : RequestType
  url : String
  rid : Nat
  maxSize : Int
  followLocation : Bool
  postData : String
deriving DecidableEq, Repr

/-- A callback invocation: onResponse(buffer) or onReject(status). -/
inductive Event
  | response (rid : Nat) (body : String)
  | reject (rid : Nat) (status : Int)
deriving DecidableEq, Repr

/-- The callback tag an event fires. -/
def Event.rid : Event → Nat
  | Event.response r _ => r
  | Event.reject r _ => r

/-- The fields of CurlRequests that drive its queueing behaviour: the
current url (empty string = no transfer active, exactly the
url.empty() test of the code), the stored callback pair (activeRid), the
response body buffer, the pending FIFO, and the cumulative byte totals. -/
structure CurlState where
  url : String
  activeRid : Nat
  buffer : String
  requests : List Request
  totalUpload : Nat
  totalDownload : Nat
deriving DecidableEq, Repr

namespace CurlRequests

/-- CurlRequests.processRequest (Network.cpp lines 128-177): when a
transfer is active (url nonempty) the request is appended to the FIFO;
otherwise the callbacks, url and cleared buffer are installed and the
transfer is started. `performOk` is the CURLMcode of the initial
curl_multi_perform: on failure onReject(502) fires and the url is
cleared. -/
def processRequest (s : CurlState) (request : Request) (performOk : Bool) :
    CurlState × List Event :=
  if s.url ≠ "" then
    ({ s with requests := s.requests ++ [request] }, [])
  else
    let s1 := { s with activeRid := request.rid, url := request.url,
                       buffer := "" }
    if performOk then (s1, [])
    else ({ s1 with url := "" }, [Event.reject request.rid 502])

/-- CurlRequests.get: builds a GET Request and hands it to
processRequest. -/
def get (s : CurlState) (url : String) (rid : Nat) (maxSize : Int)
    (performOk : Bool) : CurlState × List Event :=
  processRequest s ⟨RequestType.GET, url, rid, maxSize, false, ""⟩ performOk

/-- CurlRequests.post: builds a POST Request and hands it to
processRequest. -/
def post (s : CurlState) (url : String) (dat : String) (rid : Nat)
    (maxSize : Int) (performOk : Bool) : CurlState × List Event :=
  processRequest s ⟨RequestType.POST, url, rid, maxSize, false, dat⟩ performOk

/-- A completion message read from the multi handle: the HTTP response
code, the body accumulated by write_callback up to completion, and the
request/header sizes reported by curl_easy_getinfo (none = getinfo
failed). -/
structure CurlMsg where
  status : Int
  body : String
  requestSize : Option Nat
  headerSize : Option Nat
deriving DecidableEq, Repr

/-- Environment behaviour of one CurlRequests.update call: whether
curl_multi_perform succeeded, the completion message returned by
curl_multi_info_read (if any), and the CURLMcode of the perform issued
when the next queued request is started. -/
structure UpdateOracle where
  multiOk : Bool
  msg : Option CurlMsg
  nextPerformOk : Bool
deriving DecidableEq, Repr

/-- CurlRequests.update (Network.cpp lines 179-226). A perform failure
fires onReject(502) on the stored callback, clears the url and returns
early. Otherwise, a completion message fires onResponse(buffer) on status
200 (adding request/header/body sizes to the totals) and onReject(status)
on any other status, then clears the url. Finally, if no transfer is
active and the FIFO is nonempty, the front request is popped and
started. -/
def update (s : CurlState) (o : UpdateOracle) : CurlState × List Event :=
  if o.multiOk = false then
    ({ s with url := "" }, [Event.reject s.activeRid 502])
  else
    let done : CurlState × List Event :=
      match o.msg with
      | none => (s, [])
      | some m =>
        if m.status = 200 then
          ({ s with
              url := ""
              buffer := m.body
              totalUpload := s.totalUpload + m.requestSize.getD 0
              totalDownload :=
                s.totalDownload + m.headerSize.getD 0 + m.body.length },
           [Event.response s.activeRid m.body])
        else
          ({ s with url := "", buffer := m.body },
           [Event.reject s.activeRid m.status])
    let s1 := done.1
    match s1.requests with
    | [] => done
    | r :: rest =>
      if s1.url = "" then
        let p := processRequest { s1 with requests := rest } r o.nextPerformOk
        (p.1, done.2 ++ p.2)
      else done

/-- CurlRequests.getTotalUpload. -/
def getTotalUpload (s : CurlState) : Nat :=
  s.totalUpload

/-- CurlRequests.getTotalDownload. -/
def getTotalDownload (s : CurlState) : Nat :=
  s.totalDownload

/-- One externally visible interaction with CurlRequests: a get/post
submission (with the CURLMcode of its possible immediate perform) or one
update tick with its environment oracle. -/
inductive Cmd
  | submit (request : Request) (performOk : Bool)
  | tick (o : UpdateOracle)

/-- Interpretation of one command. -/
def step (s : CurlState) : Cmd → CurlState × List Event
  | Cmd.submit r ok => processRequest s r ok
  | Cmd.tick o => update s o

/-- Interpretation of a command sequence, accumulating fired events in
order. -/
def run (s : CurlState) : List Cmd → CurlState × List Event
  | [] => (s, [])
  | cmd :: cmds =>
    let p := step s cmd
    let q := run p.1 cmds
    (q.1, p.2 ++ q.2)

/-- Callback tags of the pending FIFO, front first. -/
def pendingRids (s : CurlState) : List Nat :=
  s.requests.map Request.rid

/-- Callback tags of all requests currently held by the queue component:
the active one (when a transfer is active) followed by the pending FIFO. -/
def slotRids (s : CurlState) : List Nat :=
  (if s.url = "" then [] else [s.activeRid]) ++ pendingRids s

/-- Callback tags of a fired event sequence, in firing order. -/
def firedRids (evs : List Event) : List Nat :=
  evs.map Event.rid

/-- Callback tags of the submissions in a command sequence, in submission
order. -/
def submittedRids : List Cmd → List Nat
  | [] => []
  | Cmd.submit r _ :: cmds => r.rid :: submittedRids cmds
  | Cmd.tick _ :: cmds => submittedRids cmds

/-- Well-formedness of the pending FIFO: every queued request has a
nonempty url, so that starting it makes the url-nonempty activity test
hold. -/
def QueueWF (s : CurlState) : Prop :=
  ∀ r ∈ s.requests, r.url ≠ ""

/-- Admissible command sequences: submissions happen while a transfer is
active (the regime of the claim) and carry a nonempty url, and the cURL
environment reports completion messages or multi-level failures only
while a transfer is active. -/
inductive Sane : CurlState → List Cmd → Prop
  | nil (s : CurlState) : Sane s []
  | submit (s : CurlState) (r : Request) (ok : Bool) (cmds : List Cmd) :
      s.url ≠ "" → r.url ≠ "" →
      Sane (processRequest s r ok).1 cmds →
      Sane s (Cmd.submit r ok :: cmds)
  | tick (s : CurlState) (o : UpdateOracle) (cmds : List Cmd) :
      (o.msg.isSome = true ∨ o.multiOk = false → s.url ≠ "") →
      Sane (update s o).1 cmds →
      Sane s (Cmd.tick o :: cmds)

end CurlRequests

/-- The fields of SocketTcpSServer relevant to its lifecycle: the ids of
the connections it accepted, the atomic open flag, and the port. -/
structure SocketTcpSServer where
  clients : List Nat
  openFlag : Bool
  port : Int
deriving DecidableEq, Repr

/-- The Network facade state: the owned CurlRequests, the id-keyed
connection and server registries (association lists), and the facade
cumulative traffic totals. -/
structure Network where
  requests : CurlState
  connections : List (Nat × SocketConnection)
  servers : List (Nat × SocketTcpSServer)
  totalUpload : Nat
  totalDownload : Nat
deriving DecidableEq, Repr

namespace SocketTcpSServer

/-- SocketTcpSServer.closeSocket (Network.cpp lines 658-685): a no-op
when the open flag was already false (open.exchange(false) returned
false); otherwise flips the flag, closes every connection this server
accepted (close with discardAll = false via Connection::close) and clears
the client list. Returns the updated facade registry and server. -/
def closeSocket (net : Network) (s : SocketTcpSServer) :
    Network × SocketTcpSServer :=
  if s.openFlag = false then (net, s)
  else
    let conns := net.connections.map
      (fun p =>
        if p.1 ∈ s.clients then (p.1, SocketConnection.close p.2 false)
        else p)
    ({ net with connections := conns },
     { s with openFlag := false, clients := [] })

/-- SocketTcpSServer.close delegates to closeSocket. -/
def close (net : Network) (s : SocketTcpSServer) :
    Network × SocketTcpSServer :=
  closeSocket net s

/-- SocketTcpSServer.isOpen. -/
def isOpen (s : SocketTcpSServer) : Bool :=
  s.openFlag

end SocketTcpSServer

namespace Network

/-- Network.getConnection: registry lookup, absence is not an error. -/
def getConnection (net : Network) (id : Nat) : Option SocketConnection :=
  (net.connections.find? (fun p => p.1 == id)).map Prod.snd

/-- Network.getTotalUpload: RequestQueue lifetime total plus the facade
accumulated connection total. -/
def getTotalUpload (net : Network) : Nat :=
  CurlRequests.getTotalUpload net.requests + net.totalUpload

/-- Network.getTotalDownload. -/
def getTotalDownload (net : Network) : Nat :=
  CurlRequests.getTotalDownload net.requests + net.totalDownload

/-- The connection sweep of Network.update (Network.cpp lines 818-828):
for each registered connection, drain pullDownload and pullUpload into
the facade totals, then erase the entry when the connection has no
buffered bytes left and is CLOSED. -/
def connSweep : List (Nat × SocketConnection) → Nat → Nat →
    List (Nat × SocketConnection) × Nat × Nat
  | [], tu, td => ([], tu, td)
  | (id, c) :: rest, tu, td =>
    let pd := SocketConnection.pullDownload c
    let pu := SocketConnection.pullUpload pd.1
    let c2 := pu.1
    let td1 := td + pd.2
    let tu1 := tu + pu.2
    if SocketConnection.available c2 = 0 ∧
        SocketConnection.getState c2 = ConnectionState.CLOSED then
      connSweep rest tu1 td1
    else
      let r := connSweep rest tu1 td1
      ((id, c2) :: r.1, r.2)

/-- Network.update (Network.cpp lines 813-838): advance the request
queue by one poll, sweep the connection registry, then drop every server
whose open flag is down. The fired HTTP callbacks are returned as
events. -/
def update (net : Network) (o : CurlRequests.UpdateOracle) :
    Network × List Event :=
  let req := CurlRequests.update net.requests o
  let sw := connSweep net.connections net.totalUpload net.totalDownload
  let servers := net.servers.filter (fun p => SocketTcpSServer.isOpen p.2)
  ({ net with
      requests := req.1
      connections := sw.1
      servers := servers
      totalUpload := sw.2.1
      totalDownload := sw.2.2 }, req.2)

end Network

/-
  Helper lemmas shared by the claim theorems.
-/

/-- Draining download then upload leaves exactly `drainConn`. -/
theorem pull_pull_eq_drainConn (c : SocketConnection) :
    (SocketConnection.pullUpload (SocketConnection.pullDownload c).1).1 =
      SocketConnection.drainConn c :=
  rfl

theorem pullDownload_snd (c : SocketConnection) :
    (SocketConnection.pullDownload c).2 = c.totalDownload :=
  rfl

theorem pullUpload_after_pullDownload_snd (c : SocketConnection) :
    (SocketConnection.pullUpload (SocketConnection.pullDownload c).1).2 =
      c.totalUpload :=
  rfl

/-- Boolean keep-test of the registry sweep: an entry survives unless its
connection is both fully drained of inbound bytes and CLOSED. -/
def keepEntry (p : Nat × SocketConnection) : Bool :=
  !(p.2.readBatch.isEmpty && (p.2.state == ConnectionState.CLOSED))

theorem keepEntry_eq_false {p : Nat × SocketConnection} :
    keepEntry p = false ↔
      (p.2.readBatch = [] ∧ p.2.state = ConnectionState.CLOSED) := by
  simp [keepEntry, List.isEmpty_iff]

theorem connSweep_skip_iff (c : SocketConnection) :
    (SocketConnection.available (SocketConnection.drainConn c) = 0 ∧
      SocketConnection.getState (SocketConnection.drainConn c) =
        ConnectionState.CLOSED) ↔
      (c.readBatch = [] ∧ c.state = ConnectionState.CLOSED) := by
  simp [SocketConnection.available, SocketConnection.getState,
    SocketConnection.drainConn, List.length_eq_zero]

/-- The surviving entries of the sweep are exactly the drained versions of
the entries that are not (drained-empty and CLOSED). -/
theorem connSweep_fst (l : List (Nat × SocketConnection)) (tu td : Nat) :
    (Network.connSweep l tu td).1 =
      (l.map (fun p => (p.1, SocketConnection.drainConn p.2))).filter
        keepEntry := by
  induction l generalizing tu td with
  | nil => simp [Network.connSweep]
  | cons hd tl ih =>
    obtain ⟨id, c⟩ := hd
    rw [Network.connSweep]
    simp only [pull_pull_eq_drainConn, pullDownload_snd,
      pullUpload_after_pullDownload_snd]
    by_cases h : c.readBatch = [] ∧ c.state = ConnectionState.CLOSED
    · rw [if_pos ((connSweep_skip_iff c).mpr h)]
      have hk : keepEntry (id, SocketConnection.drainConn c) = false := by
        rw [keepEntry_eq_false]
        exact h
      simp [hk, ih]
    · rw [if_neg (fun hc => h ((connSweep_skip_iff c).mp hc))]
      have hk : keepEntry (id, SocketConnection.drainConn c) = true := by
        rcases Bool.eq_false_or_eq_true
            (keepEntry (id, SocketConnection.drainConn c)) with ht | hf
        · exact ht
        · exact absurd (keepEntry_eq_false.mp hf) h
      simp only [List.map_cons, List.filter_cons, hk, if_pos]
      simp [ih]

/-- The sweep adds each connection accumulator into the facade totals. -/
theorem connSweep_totals (l : List (Nat × SocketConnection)) (tu td : Nat) :
    (Network.connSweep l tu td).2.1 =
      tu + (l.map (fun p => p.2.totalUpload)).sum ∧
    (Network.connSweep l tu td).2.2 =
      td + (l.map (fun p => p.2.totalDownload)).sum := by
  induction l generalizing tu td with
  | nil => simp [Network.connSweep]
  | cons hd tl ih =>
    obtain ⟨id, c⟩ := hd
    rw [Network.connSweep]
    simp only [pull_pull_eq_drainConn, pullDownload_snd,
      pullUpload_after_pullDownload_snd]
    obtain ⟨h1, h2⟩ := ih (tu + c.totalUpload) (td + c.totalDownload)
    split
    · refine ⟨?_, ?_⟩
      · rw [h1]; simp; ring
      · rw [h2]; simp; ring
    · refine ⟨?_, ?_⟩
      · show (Network.connSweep tl (tu + c.totalUpload)
            (td + c.totalDownload)).2.1 = _
        rw [h1]; simp; ring
      · show (Network.connSweep tl (tu + c.totalUpload)
            (td + c.totalDownload)).2.2 = _
        rw [h2]; simp; ring

/-
  C1 - SocketConnection.recv
-/

/-- Claim C1, counterexample: recv returns the no-data value -1 on a
CONNECTING connection with an empty inbound queue, so -1 is not returned
only in the CLOSED state. -/
theorem recv_minus_one_not_only_closed :
    (SocketConnection.recv ⟨0, 0, ConnectionState.CONNECTING, []⟩ 10).2.1
        = -1 ∧
      ConnectionState.CONNECTING ≠ ConnectionState.CLOSED := by
  decide

/-- Claim C1 (amended): recv returns -1 exactly when the inbound queue is
empty and the state is anything other than CONNECTED (INITIAL, CONNECTING
or CLOSED alike); whenever bytes are buffered it copies up to maxLen bytes
in FIFO order out of the queue, removes them and returns the count; and a
CONNECTED connection with an empty queue gets 0, not -1. -/
theorem recv_spec (c : SocketConnection) (len : Nat) :
    ((SocketConnection.recv c len).2.1 = -1 ↔
      (c.state ≠ ConnectionState.CONNECTED ∧ c.readBatch = [])) ∧
    (c.readBatch ≠ [] →
      (SocketConnection.recv c len).2.2 =
          c.readBatch.take (min c.readBatch.length len) ∧
        (SocketConnection.recv c len).1.readBatch =
          c.readBatch.drop (min c.readBatch.length len) ∧
        (SocketConnection.recv c len).2.1 =
          ((min c.readBatch.length len : Nat) : Int)) ∧
    (c.state = ConnectionState.CONNECTED ∧ c.readBatch = [] →
      (SocketConnection.recv c len).2.1 = 0) := by
  unfold SocketConnection.recv
  by_cases h : c.state ≠ ConnectionState.CONNECTED ∧ c.readBatch = []
  · rw [if_pos h]
    refine ⟨by simp [h], fun hb => absurd h.2 hb, fun hc => absurd hc.1 h.1⟩
  · rw [if_neg h]
    refine ⟨?_, fun _ => ⟨rfl, rfl, rfl⟩, fun hc => ?_⟩
    · constructor
      · intro habs
        have hpos : (0 : Int) ≤ ((min c.readBatch.length len : Nat) : Int) :=
          Int.natCast_nonneg _
        simp only [] at habs
        omega
      · intro hcon
        exact absurd hcon h
    · simp [hc.2]

/-- Witness for recv_spec at a concrete CONNECTED connection holding
three buffered bytes. -/
theorem recv_spec_witness :
    ((SocketConnection.recv ⟨1, 2, ConnectionState.CONNECTED, [5, 6, 7]⟩
        2).2.1 = -1 ↔
      ((ConnectionState.CONNECTED : ConnectionState) ≠
          ConnectionState.CONNECTED ∧
        ([5, 6, 7] : List Nat) = [])) ∧
    (([5, 6, 7] : List Nat) ≠ [] →
      (SocketConnection.recv ⟨1, 2, ConnectionState.CONNECTED, [5, 6, 7]⟩
          2).2.2 = ([5, 6, 7] : List Nat).take (min 3 2) ∧
        (SocketConnection.recv ⟨1, 2, ConnectionState.CONNECTED, [5, 6, 7]⟩
            2).1.readBatch = ([5, 6, 7] : List Nat).drop (min 3 2) ∧
        (SocketConnection.recv ⟨1, 2, ConnectionState.CONNECTED, [5, 6, 7]⟩
            2).2.1 = ((min 3 2 : Nat) : Int)) ∧
    ((ConnectionState.CONNECTED : ConnectionState) =
        ConnectionState.CONNECTED ∧ ([5, 6, 7] : List Nat) = [] →
      (SocketConnection.recv ⟨1, 2, ConnectionState.CONNECTED, [5, 6, 7]⟩
          2).2.1 = 0) :=
  recv_spec ⟨1, 2, ConnectionState.CONNECTED, [5, 6, 7]⟩ 2

/-
  C8 - idempotence of close, CLOSED terminal
-/

/-- Claim C8: close on a Connection always lands in CLOSED; a second
close (with the default discard flag) is a no-op on the whole record and
any further close keeps the state CLOSED; a CLOSED connection is inert to
the receive loop; for a Listener, closeSocket drops the open flag and a
second closeSocket changes nothing. -/
theorem close_idempotent (c : SocketConnection) (b b2 : Bool)
    (net : Network) (s : SocketTcpSServer) (r : SocketConnection.RecvOutcome) :
    (SocketConnection.close c b).state = ConnectionState.CLOSED ∧
    SocketConnection.close (SocketConnection.close c b) false =
      SocketConnection.close c b ∧
    (SocketConnection.close (SocketConnection.close c b) b2).state =
      ConnectionState.CLOSED ∧
    (c.state = ConnectionState.CLOSED →
      SocketConnection.listenStep c r = c) ∧
    (SocketTcpSServer.closeSocket net s).2.openFlag = false ∧
    SocketTcpSServer.closeSocket (SocketTcpSServer.closeSocket net s).1
        (SocketTcpSServer.closeSocket net s).2 =
      SocketTcpSServer.closeSocket net s := by
  have hstate : ∀ (d : SocketConnection) (b3 : Bool),
      (SocketConnection.close d b3).state = ConnectionState.CLOSED := by
    intro d b3
    cases b3 <;> simp [SocketConnection.close] <;> split_ifs with h <;>
      simp_all
  have hflag : (SocketTcpSServer.closeSocket net s).2.openFlag = false := by
    unfold SocketTcpSServer.closeSocket
    split_ifs with h
    · exact h
    · rfl
  refine ⟨hstate c b, ?_, hstate _ b2, ?_, hflag, ?_⟩
  · have h := hstate c b
    conv_lhs => rw [SocketConnection.close]
    simp [h]
  · intro h
    simp [SocketConnection.listenStep, h]
  · have hidem : ∀ (n2 : Network) (s2 : SocketTcpSServer),
        s2.openFlag = false →
        SocketTcpSServer.closeSocket n2 s2 = (n2, s2) := by
      intro n2 s2 h2
      unfold SocketTcpSServer.closeSocket
      rw [if_pos h2]
    rw [hidem _ _ hflag]

/-- Witness for close_idempotent at a concrete CONNECTED connection, an
open one-client server and a byte outcome. -/
theorem close_idempotent_witness :
    (SocketConnection.close ⟨3, 4, ConnectionState.CONNECTED, [1]⟩
        true).state = ConnectionState.CLOSED ∧
    SocketConnection.close
        (SocketConnection.close ⟨3, 4, ConnectionState.CONNECTED, [1]⟩ true)
        false =
      SocketConnection.close ⟨3, 4, ConnectionState.CONNECTED, [1]⟩ true ∧
    (SocketConnection.close
        (SocketConnection.close ⟨3, 4, ConnectionState.CONNECTED, [1]⟩ true)
        false).state = ConnectionState.CLOSED ∧
    ((⟨3, 4, ConnectionState.CONNECTED, [1]⟩ : SocketConnection).state =
        ConnectionState.CLOSED →
      SocketConnection.listenStep ⟨3, 4, ConnectionState.CONNECTED, [1]⟩
          (SocketConnection.RecvOutcome.bytes [2]) =
        ⟨3, 4, ConnectionState.CONNECTED, [1]⟩) ∧
    (SocketTcpSServer.closeSocket
        ⟨⟨"", 0, "", [], 0, 0⟩, [(0, ⟨0, 0, ConnectionState.CONNECTED, []⟩)],
          [], 0, 0⟩
        ⟨[0], true, 9⟩).2.openFlag = false ∧
    SocketTcpSServer.closeSocket
        (SocketTcpSServer.closeSocket
          ⟨⟨"", 0, "", [], 0, 0⟩,
            [(0, ⟨0, 0, ConnectionState.CONNECTED, []⟩)], [], 0, 0⟩
          ⟨[0], true, 9⟩).1
        (SocketTcpSServer.closeSocket
          ⟨⟨"", 0, "", [], 0, 0⟩,
            [(0, ⟨0, 0, ConnectionState.CONNECTED, []⟩)], [], 0, 0⟩
          ⟨[0], true, 9⟩).2 =
      SocketTcpSServer.closeSocket
        ⟨⟨"", 0, "", [], 0, 0⟩, [(0, ⟨0, 0, ConnectionState.CONNECTED, []⟩)],
          [], 0, 0⟩
        ⟨[0], true, 9⟩ :=
  close_idempotent ⟨3, 4, ConnectionState.CONNECTED, [1]⟩ true false
    ⟨⟨"", 0, "", [], 0, 0⟩, [(0, ⟨0, 0, ConnectionState.CONNECTED, []⟩)],
      [], 0, 0⟩
    ⟨[0], true, 9⟩ (SocketConnection.RecvOutcome.bytes [2])

/-
  C5 - bounded inbound buffer
-/

/-- One receive-loop step never pushes the inbound queue past
MAX_INBUF. -/
theorem listenStep_bound (c : SocketConnection) (r : SocketConnection.RecvOutcome)
    (hb : c.readBatch.length ≤ SocketConnection.MAX_INBUF) :
    (SocketConnection.listenStep c r).readBatch.length ≤
      SocketConnection.MAX_INBUF := by
  unfold SocketConnection.listenStep
  split_ifs with h
  · exact hb
  · cases r with
    | peerClosed => exact hb
    | transientErr => exact hb
    | fatalErr => exact hb
    | bytes data =>
      simp only []
      split_ifs with h2
      · exact hb
      · simp only [List.length_append]
        omega

/-- Claim C5: starting within the 1 MiB bound, the inbound queue never
exceeds 1 MiB over any run of the receive loop; and a batch whose append
would push the queue past 1 MiB makes the loop close the connection,
retaining none of the batch bytes and leaving the download accumulator
untouched. -/
theorem inbound_buffer_limit (c : SocketConnection)
    (rs : List SocketConnection.RecvOutcome) (data : List Nat)
    (hb : c.readBatch.length ≤ SocketConnection.MAX_INBUF) :
    (SocketConnection.listenRun c rs).readBatch.length ≤
      SocketConnection.MAX_INBUF ∧
    (c.state = ConnectionState.CONNECTED →
      c.readBatch.length + data.length > SocketConnection.MAX_INBUF →
      (SocketConnection.listenStep c (SocketConnection.RecvOutcome.bytes data)).state =
          ConnectionState.CLOSED ∧
        (SocketConnection.listenStep c
            (SocketConnection.RecvOutcome.bytes data)).readBatch = c.readBatch ∧
        (SocketConnection.listenStep c
            (SocketConnection.RecvOutcome.bytes data)).totalDownload = c.totalDownload) := by
  constructor
  · induction rs generalizing c with
    | nil => exact hb
    | cons r rs ih => exact ih _ (listenStep_bound c r hb)
  · intro hst hover
    simp [SocketConnection.listenStep, hst, hover]

/-- Witness for inbound_buffer_limit at a small CONNECTED connection. -/
theorem inbound_buffer_limit_witness :
    (SocketConnection.listenRun ⟨0, 0, ConnectionState.CONNECTED, [1, 2]⟩
        [SocketConnection.RecvOutcome.bytes [9]]).readBatch.length ≤
      SocketConnection.MAX_INBUF ∧
    ((⟨0, 0, ConnectionState.CONNECTED, [1, 2]⟩ :
          SocketConnection).state = ConnectionState.CONNECTED →
      ([1, 2] : List Nat).length + ([9] : List Nat).length >
          SocketConnection.MAX_INBUF →
      (SocketConnection.listenStep
          ⟨0, 0, ConnectionState.CONNECTED, [1, 2]⟩
          (SocketConnection.RecvOutcome.bytes [9])).state =
          ConnectionState.CLOSED ∧
        (SocketConnection.listenStep
            ⟨0, 0, ConnectionState.CONNECTED, [1, 2]⟩
            (SocketConnection.RecvOutcome.bytes [9])).readBatch =
          ([1, 2] : List Nat) ∧
        (SocketConnection.listenStep
            ⟨0, 0, ConnectionState.CONNECTED, [1, 2]⟩
            (SocketConnection.RecvOutcome.bytes [9])).totalDownload = 0) :=
  inbound_buffer_limit ⟨0, 0, ConnectionState.CONNECTED, [1, 2]⟩
    [SocketConnection.RecvOutcome.bytes [9]] [9] (by decide)

/-
  C6 - all-or-nothing send
-/

theorem keepEntry_eq_true {p : Nat × SocketConnection} :
    keepEntry p = true ↔
      ¬(p.2.readBatch = [] ∧ p.2.state = ConnectionState.CLOSED) := by
  rw [← Bool.not_eq_false, not_iff_not, keepEntry_eq_false]

/-- Outcome of the send loop: either the loop hit a fatal condition,
closed the connection and reported -1, or it flushed everything and added
exactly the full byte count to the upload accumulator. -/
theorem sendLoop_result (c : SocketConnection) (len : Nat)
    (outs : List SocketConnection.SendOutcome) :
    ∀ (total : Nat), total ≤ len →
      ∀ c3 r, SocketConnection.sendLoop c len total outs = some (c3, r) →
        (c3 = SocketConnection.close c false ∧ r = -1) ∨
        (c3 = { c with totalUpload := c.totalUpload + len } ∧
          r = (len : Int)) := by
  induction outs with
  | nil =>
    intro total htot c3 r h
    simp only [SocketConnection.sendLoop] at h
    split_ifs at h with hge
    · have hEq : total = len := le_antisymm htot hge
      subst hEq
      refine Or.inr ?_
      have h2 := Option.some.inj h
      exact ⟨(Prod.mk.injEq _ _ _ _ ▸ h2).1.symm,
        (Prod.mk.injEq _ _ _ _ ▸ h2).2.symm⟩
  | cons o rest ih =>
    intro total htot c3 r h
    simp only [SocketConnection.sendLoop] at h
    split_ifs at h with hge
    · have hEq : total = len := le_antisymm htot hge
      subst hEq
      have h2 := Option.some.inj h
      exact Or.inr ⟨(Prod.mk.injEq _ _ _ _ ▸ h2).1.symm,
        (Prod.mk.injEq _ _ _ _ ▸ h2).2.symm⟩
    · cases o with
      | transient => exact ih total htot c3 r h
      | fatalError =>
        have h2 := Option.some.inj h
        exact Or.inl ⟨(Prod.mk.injEq _ _ _ _ ▸ h2).1.symm,
          (Prod.mk.injEq _ _ _ _ ▸ h2).2.symm⟩
      | wrote n =>
        cases n with
        | zero =>
          have h2 := Option.some.inj h
          exact Or.inl ⟨(Prod.mk.injEq _ _ _ _ ▸ h2).1.symm,
            (Prod.mk.injEq _ _ _ _ ▸ h2).2.symm⟩
        | succ m =>
          refine ih (total + min (m + 1) (len - total)) ?_ c3 r h
          have hmin := Nat.min_le_right (m + 1) (len - total)
          omega

/-- Claim C6: send fails immediately with -1 when the connection is not
CONNECTED; otherwise the call is all-or-nothing: a fatal outcome (socket
error other than a transient one, or a zero-byte write) closes the
connection and yields -1 with the upload accumulator untouched, and the
accumulator grows by exactly len only when all len bytes were flushed, in
which case len is returned. -/
theorem send_all_or_nothing (c : SocketConnection) (len : Nat)
    (outs : List SocketConnection.SendOutcome) :
    (c.state ≠ ConnectionState.CONNECTED →
      SocketConnection.send c len outs = some (c, -1)) ∧
    (∀ c3 r, c.state = ConnectionState.CONNECTED →
      SocketConnection.send c len outs = some (c3, r) →
      (r = -1 ∧ c3.state = ConnectionState.CLOSED ∧
        c3.totalUpload = c.totalUpload ∧ c3.readBatch = c.readBatch) ∨
      (r = (len : Int) ∧
        c3 = { c with totalUpload := c.totalUpload + len })) := by
  constructor
  · intro h
    simp [SocketConnection.send, h]
  · intro c3 r hconn h
    rw [SocketConnection.send, if_neg (fun hne => hne hconn)] at h
    rcases sendLoop_result c len outs 0 (Nat.zero_le len) c3 r h with
      ⟨hc, hr⟩ | ⟨hc, hr⟩
    · subst hc
      refine Or.inl ⟨hr, ?_, ?_, ?_⟩ <;>
        simp [SocketConnection.close, hconn]
    · exact Or.inr ⟨hr, hc⟩

/-- Witness for send_all_or_nothing: a CONNECTED connection flushes 5
bytes in two writes. -/
theorem send_all_or_nothing_witness :
    ((⟨10, 0, ConnectionState.CONNECTED, []⟩ : SocketConnection).state ≠
        ConnectionState.CONNECTED →
      SocketConnection.send ⟨10, 0, ConnectionState.CONNECTED, []⟩ 5
          [SocketConnection.SendOutcome.wrote 2,
            SocketConnection.SendOutcome.wrote 3] =
        some (⟨10, 0, ConnectionState.CONNECTED, []⟩, -1)) ∧
    (∀ c3 r,
      (⟨10, 0, ConnectionState.CONNECTED, []⟩ : SocketConnection).state =
        ConnectionState.CONNECTED →
      SocketConnection.send ⟨10, 0, ConnectionState.CONNECTED, []⟩ 5
          [SocketConnection.SendOutcome.wrote 2,
            SocketConnection.SendOutcome.wrote 3] = some (c3, r) →
      (r = -1 ∧ c3.state = ConnectionState.CLOSED ∧ c3.totalUpload = 10 ∧
        c3.readBatch = []) ∨
      (r = ((5 : Nat) : Int) ∧
        c3 = { (⟨10, 0, ConnectionState.CONNECTED, []⟩ : SocketConnection)
                with totalUpload := 10 + 5 })) :=
  send_all_or_nothing ⟨10, 0, ConnectionState.CONNECTED, []⟩ 5
    [SocketConnection.SendOutcome.wrote 2,
      SocketConnection.SendOutcome.wrote 3]

/-
  C4 - deferred registry removal
-/

theorem network_update_connections (net : Network)
    (o : CurlRequests.UpdateOracle) :
    (Network.update net o).1.connections =
      (net.connections.map
        (fun p => (p.1, SocketConnection.drainConn p.2))).filter
        keepEntry := by
  simp [Network.update, connSweep_fst]

/-- Claim C4: the sweep of Network.update keeps a registered connection
exactly when it is not simultaneously CLOSED and drained of inbound
bytes; in particular a CLOSED connection with residual buffered bytes
stays registered, and recv on it still yields all the residual bytes. -/
theorem registry_removal_policy (net : Network)
    (o : CurlRequests.UpdateOracle) (id : Nat) (c : SocketConnection)
    (hmem : (id, c) ∈ net.connections) :
    ((id, SocketConnection.drainConn c) ∈
        (Network.update net o).1.connections ↔
      ¬(c.readBatch = [] ∧ c.state = ConnectionState.CLOSED)) ∧
    (c.state = ConnectionState.CLOSED → c.readBatch ≠ [] →
      (id, SocketConnection.drainConn c) ∈
          (Network.update net o).1.connections ∧
        (SocketConnection.recv (SocketConnection.drainConn c)
            c.readBatch.length).2.2 = c.readBatch) := by
  have hchar := network_update_connections net o
  have hiff : (id, SocketConnection.drainConn c) ∈
      (Network.update net o).1.connections ↔
      ¬(c.readBatch = [] ∧ c.state = ConnectionState.CLOSED) := by
    rw [hchar]
    constructor
    · intro hin
      have hk := (List.mem_filter.mp hin).2
      have := keepEntry_eq_true.mp hk
      simpa [SocketConnection.drainConn] using this
    · intro hkeep
      refine List.mem_filter.mpr ⟨?_, ?_⟩
      · exact List.mem_map_of_mem _ hmem
      · rw [keepEntry_eq_true]
        simpa [SocketConnection.drainConn] using hkeep
  refine ⟨hiff, fun hcl hbytes => ⟨hiff.mpr (fun hand => hbytes hand.1), ?_⟩⟩
  rw [SocketConnection.recv,
    if_neg (fun hand => hbytes (by
      simpa [SocketConnection.drainConn] using hand.2))]
  simp [SocketConnection.drainConn]

/-- Witness for registry_removal_policy: a registry holding one CLOSED
connection with one residual byte keeps it across an update. -/
theorem registry_removal_policy_witness :
    ((7, SocketConnection.drainConn ⟨0, 3, ConnectionState.CLOSED, [5]⟩) ∈
        (Network.update
          ⟨⟨"", 0, "", [], 0, 0⟩, [(7, ⟨0, 3, ConnectionState.CLOSED, [5]⟩)],
            [], 0, 0⟩
          ⟨true, none, true⟩).1.connections ↔
      ¬(([5] : List Nat) = [] ∧
        (ConnectionState.CLOSED : ConnectionState) =
          ConnectionState.CLOSED)) ∧
    ((ConnectionState.CLOSED : ConnectionState) = ConnectionState.CLOSED →
      ([5] : List Nat) ≠ [] →
      (7, SocketConnection.drainConn ⟨0, 3, ConnectionState.CLOSED, [5]⟩) ∈
          (Network.update
            ⟨⟨"", 0, "", [], 0, 0⟩,
              [(7, ⟨0, 3, ConnectionState.CLOSED, [5]⟩)], [], 0, 0⟩
            ⟨true, none, true⟩).1.connections ∧
        (SocketConnection.recv
            (SocketConnection.drainConn ⟨0, 3, ConnectionState.CLOSED, [5]⟩)
            ([5] : List Nat).length).2.2 = [5]) :=
  registry_removal_policy
    ⟨⟨"", 0, "", [], 0, 0⟩, [(7, ⟨0, 3, ConnectionState.CLOSED, [5]⟩)],
      [], 0, 0⟩
    ⟨true, none, true⟩ 7 ⟨0, 3, ConnectionState.CLOSED, [5]⟩
    (by simp)

/-
  C7 - drain-and-reset accounting
-/

/-- Claim C7: pullUpload and pullDownload return the accumulated count
and zero the accumulator, so an immediately repeated pull returns 0; the
facade update adds exactly the per-connection accumulators into its
totals and every connection left in the registry has both accumulators
zeroed, so no byte is counted twice. -/
theorem counters_drain_and_reset (c : SocketConnection) (net : Network)
    (o : CurlRequests.UpdateOracle) :
    (SocketConnection.pullUpload c).2 = c.totalUpload ∧
    (SocketConnection.pullUpload (SocketConnection.pullUpload c).1).2 = 0 ∧
    (SocketConnection.pullDownload c).2 = c.totalDownload ∧
    (SocketConnection.pullDownload
      (SocketConnection.pullDownload c).1).2 = 0 ∧
    (Network.update net o).1.totalUpload =
      net.totalUpload +
        (net.connections.map (fun p => p.2.totalUpload)).sum ∧
    (Network.update net o).1.totalDownload =
      net.totalDownload +
        (net.connections.map (fun p => p.2.totalDownload)).sum ∧
    ∀ p ∈ (Network.update net o).1.connections,
      p.2.totalUpload = 0 ∧ p.2.totalDownload = 0 := by
  refine ⟨rfl, rfl, rfl, rfl, ?_, ?_, ?_⟩
  · have h := (connSweep_totals net.connections net.totalUpload
      net.totalDownload).1
    simpa [Network.update] using h
  · have h := (connSweep_totals net.connections net.totalUpload
      net.totalDownload).2
    simpa [Network.update] using h
  · intro p hp
    rw [network_update_connections] at hp
    have hmap := (List.mem_filter.mp hp).1
    rcases List.mem_map.mp hmap with ⟨q, _, hq⟩
    rw [← hq]
    exact ⟨rfl, rfl⟩

/-- Witness for counters_drain_and_reset at a connection holding 4
uploaded and 9 downloaded bytes inside a one-entry registry. -/
theorem counters_drain_and_reset_witness :
    (SocketConnection.pullUpload
        ⟨4, 9, ConnectionState.CONNECTED, [1]⟩).2 = 4 ∧
    (SocketConnection.pullUpload
        (SocketConnection.pullUpload
          ⟨4, 9, ConnectionState.CONNECTED, [1]⟩).1).2 = 0 ∧
    (SocketConnection.pullDownload
        ⟨4, 9, ConnectionState.CONNECTED, [1]⟩).2 = 9 ∧
    (SocketConnection.pullDownload
        (SocketConnection.pullDownload
          ⟨4, 9, ConnectionState.CONNECTED, [1]⟩).1).2 = 0 ∧
    (Network.update
        ⟨⟨"", 0, "", [], 0, 0⟩,
          [(1, ⟨4, 9, ConnectionState.CONNECTED, [1]⟩)], [], 100, 200⟩
        ⟨true, none, true⟩).1.totalUpload =
      100 + ([(1, (⟨4, 9, ConnectionState.CONNECTED, [1]⟩ :
          SocketConnection))].map (fun p => p.2.totalUpload)).sum ∧
    (Network.update
        ⟨⟨"", 0, "", [], 0, 0⟩,
          [(1, ⟨4, 9, ConnectionState.CONNECTED, [1]⟩)], [], 100, 200⟩
        ⟨true, none, true⟩).1.totalDownload =
      200 + ([(1, (⟨4, 9, ConnectionState.CONNECTED, [1]⟩ :
          SocketConnection))].map (fun p => p.2.totalDownload)).sum ∧
    ∀ p ∈ (Network.update
        ⟨⟨"", 0, "", [], 0, 0⟩,
          [(1, ⟨4, 9, ConnectionState.CONNECTED, [1]⟩)], [], 100, 200⟩
        ⟨true, none, true⟩).1.connections,
      p.2.totalUpload = 0 ∧ p.2.totalDownload = 0 :=
  counters_drain_and_reset ⟨4, 9, ConnectionState.CONNECTED, [1]⟩
    ⟨⟨"", 0, "", [], 0, 0⟩,
      [(1, ⟨4, 9, ConnectionState.CONNECTED, [1]⟩)], [], 100, 200⟩
    ⟨true, none, true⟩

/-
  C10 - close(discardAll = true) on an already CLOSED connection
-/

/-- Claim C10: on an already CLOSED connection, close(true) still clears
the buffered inbound bytes (the discard runs before the early return), a
subsequent recv reports no data, and the connection is dropped by the
next facade update sweep. -/
theorem close_discard_after_closed (c : SocketConnection) (net : Network)
    (o : CurlRequests.UpdateOracle) (id : Nat)
    (h : c.state = ConnectionState.CLOSED) :
    SocketConnection.close c true = { c with readBatch := [] } ∧
    (SocketConnection.recv (SocketConnection.close c true) 1).2.1 = -1 ∧
    (∀ c3 : SocketConnection, c3.readBatch = [] →
      c3.state = ConnectionState.CLOSED →
      (id, c3) ∉ (Network.update net o).1.connections) := by
  have h1 : SocketConnection.close c true = { c with readBatch := [] } := by
    simp [SocketConnection.close, h]
  refine ⟨h1, ?_, ?_⟩
  · rw [h1, SocketConnection.recv, if_pos (by simp [h])]
  · intro c3 hb hs hmem
    rw [network_update_connections] at hmem
    have hk := (List.mem_filter.mp hmem).2
    exact keepEntry_eq_true.mp hk ⟨hb, hs⟩

/-- Witness for close_discard_after_closed at a CLOSED connection with
two residual bytes inside a one-entry registry. -/
theorem close_discard_after_closed_witness :
    SocketConnection.close ⟨0, 0, ConnectionState.CLOSED, [1, 2]⟩ true =
      { (⟨0, 0, ConnectionState.CLOSED, [1, 2]⟩ : SocketConnection) with
          readBatch := [] } ∧
    (SocketConnection.recv
        (SocketConnection.close ⟨0, 0, ConnectionState.CLOSED, [1, 2]⟩ true)
        1).2.1 = -1 ∧
    (∀ c3 : SocketConnection, c3.readBatch = [] →
      c3.state = ConnectionState.CLOSED →
      (3, c3) ∉ (Network.update
        ⟨⟨"", 0, "", [], 0, 0⟩,
          [(3, ⟨0, 0, ConnectionState.CLOSED, [1, 2]⟩)], [], 0, 0⟩
        ⟨true, none, true⟩).1.connections) :=
  close_discard_after_closed ⟨0, 0, ConnectionState.CLOSED, [1, 2]⟩
    ⟨⟨"", 0, "", [], 0, 0⟩, [(3, ⟨0, 0, ConnectionState.CLOSED, [1, 2]⟩)],
      [], 0, 0⟩
    ⟨true, none, true⟩ 3 rfl

/-
  C3 - callback exclusivity of the request queue
-/

/-- Claim C3: while a request is active (with a callback tag distinct
from every queued one), one update call fires exactly one callback for it
when its completion is processed: onResponse with the full accumulated
body exactly on status 200, onReject(status) on any other status,
onReject(502) on a multi-level transport failure; and no callback for it
when nothing completed. onResponse and onReject never both fire for the
same request. -/
theorem http_callback_exclusive (s : CurlState)
    (o : CurlRequests.UpdateOracle) (hactive : s.url ≠ "")
    (hdistinct : s.activeRid ∉ CurlRequests.pendingRids s) :
    (o.multiOk = false →
      (CurlRequests.update s o).2 = [Event.reject s.activeRid 502]) ∧
    (∀ m, o.multiOk = true → o.msg = some m →
      (CurlRequests.update s o).2.filter
          (fun e => e.rid == s.activeRid) =
        (if m.status = 200 then [Event.response s.activeRid m.body]
          else [Event.reject s.activeRid m.status])) ∧
    (o.multiOk = true → o.msg = none →
      (CurlRequests.update s o).2 = []) := by
  refine ⟨?_, ?_, ?_⟩
  · intro hmf
    simp [CurlRequests.update, hmf]
  · intro m hmo hm
    cases hreq : s.requests with
    | nil =>
      by_cases hstat : m.status = 200 <;>
        simp [CurlRequests.update, hmo, hm, hreq, hstat, Event.rid]
    | cons r rest =>
      have hne : (r.rid == s.activeRid) = false := by
        rw [beq_eq_false_iff_ne]
        intro he
        refine hdistinct ?_
        rw [← he]
        exact List.mem_map_of_mem Request.rid
          (hreq ▸ List.mem_cons_self r rest)
      by_cases hstat : m.status = 200 <;>
        cases hnp : o.nextPerformOk <;>
          simp [CurlRequests.update, CurlRequests.processRequest, hmo, hm,
            hreq, hstat, hnp, Event.rid, hne]
  · intro hmo hm
    simp [CurlRequests.update, hmo, hm, hactive]
    cases s.requests <;> rfl

/-- Witness for http_callback_exclusive with an active request tagged 0
and one queued request tagged 1. -/
theorem http_callback_exclusive_witness :
    (((⟨true, some ⟨200, "ok", none, none⟩, true⟩ :
          CurlRequests.UpdateOracle)).multiOk = false →
      (CurlRequests.update
          ⟨"http://a", 0, "", [⟨RequestType.GET, "http://b", 1, 0, false,
            ""⟩], 0, 0⟩
          ⟨true, some ⟨200, "ok", none, none⟩, true⟩).2 =
        [Event.reject 0 502]) ∧
    (∀ m, ((⟨true, some ⟨200, "ok", none, none⟩, true⟩ :
          CurlRequests.UpdateOracle)).multiOk = true →
      ((⟨true, some ⟨200, "ok", none, none⟩, true⟩ :
          CurlRequests.UpdateOracle)).msg = some m →
      (CurlRequests.update
          ⟨"http://a", 0, "", [⟨RequestType.GET, "http://b", 1, 0, false,
            ""⟩], 0, 0⟩
          ⟨true, some ⟨200, "ok", none, none⟩, true⟩).2.filter
          (fun e => e.rid == 0) =
        (if m.status = 200 then [Event.response 0 m.body]
          else [Event.reject 0 m.status])) ∧
    (((⟨true, some ⟨200, "ok", none, none⟩, true⟩ :
          CurlRequests.UpdateOracle)).multiOk = true →
      ((⟨true, some ⟨200, "ok", none, none⟩, true⟩ :
          CurlRequests.UpdateOracle)).msg = none →
      (CurlRequests.update
          ⟨"http://a", 0, "", [⟨RequestType.GET, "http://b", 1, 0, false,
            ""⟩], 0, 0⟩
          ⟨true, some ⟨200, "ok", none, none⟩, true⟩).2 = []) :=
  http_callback_exclusive
    ⟨"http://a", 0, "", [⟨RequestType.GET, "http://b", 1, 0, false, ""⟩],
      0, 0⟩
    ⟨true, some ⟨200, "ok", none, none⟩, true⟩ (by decide) (by decide)

/-
  C9 - 404 rejection and the start of the next queued request
-/

/-- Claim C9, counterexample: with request 0 active and request 1 queued,
the update call that processes a 404 completion fires onReject(404) and
already starts the queued request within that same call (its url and
callback tag become current and the FIFO empties), so the next request
does not wait for the following update call. -/
theorem http_next_request_starts_same_update :
    (CurlRequests.update
        ⟨"http://a", 0, "", [⟨RequestType.GET, "http://b", 1, 0, false,
          ""⟩], 0, 0⟩
        ⟨true, some ⟨404, "", none, none⟩, true⟩).2 =
      [Event.reject 0 404] ∧
    (CurlRequests.update
        ⟨"http://a", 0, "", [⟨RequestType.GET, "http://b", 1, 0, false,
          ""⟩], 0, 0⟩
        ⟨true, some ⟨404, "", none, none⟩, true⟩).1.url = "http://b" ∧
    (CurlRequests.update
        ⟨"http://a", 0, "", [⟨RequestType.GET, "http://b", 1, 0, false,
          ""⟩], 0, 0⟩
        ⟨true, some ⟨404, "", none, none⟩, true⟩).1.activeRid = 1 ∧
    (CurlRequests.update
        ⟨"http://a", 0, "", [⟨RequestType.GET, "http://b", 1, 0, false,
          ""⟩], 0, 0⟩
        ⟨true, some ⟨404, "", none, none⟩, true⟩).1.requests = [] := by
  decide

/-- Claim C9 (amended): when a request completes with status 404 while
another is queued, onReject(404) fires, onResponse never fires for that
request, and the next queued request is started within the same update
call that delivered the rejection (immediately after it), not on the
following one. -/
theorem http_reject_then_next_starts (s : CurlState)
    (o : CurlRequests.UpdateOracle) (r : Request) (rest : List Request)
    (m : CurlRequests.CurlMsg) (_hact : s.url ≠ "")
    (hq : s.requests = r :: rest) (hok : o.multiOk = true)
    (hm : o.msg = some m) (hst : m.status = 404)
    (hnext : o.nextPerformOk = true) :
    (CurlRequests.update s o).2 = [Event.reject s.activeRid 404] ∧
    (CurlRequests.update s o).1.url = r.url ∧
    (CurlRequests.update s o).1.activeRid = r.rid ∧
    (CurlRequests.update s o).1.requests = rest := by
  simp [CurlRequests.update, CurlRequests.processRequest, hok, hm, hst,
    hq, hnext]

/-- Witness for http_reject_then_next_starts at the concrete two-request
scenario. -/
theorem http_reject_then_next_starts_witness :
    (CurlRequests.update
        ⟨"http://c", 5, "", [⟨RequestType.GET, "http://d", 6, 0, false,
          ""⟩], 0, 0⟩
        ⟨true, some ⟨404, "nf", none, none⟩, true⟩).2 =
      [Event.reject 5 404] ∧
    (CurlRequests.update
        ⟨"http://c", 5, "", [⟨RequestType.GET, "http://d", 6, 0, false,
          ""⟩], 0, 0⟩
        ⟨true, some ⟨404, "nf", none, none⟩, true⟩).1.url =
      (⟨RequestType.GET, "http://d", 6, 0, false, ""⟩ : Request).url ∧
    (CurlRequests.update
        ⟨"http://c", 5, "", [⟨RequestType.GET, "http://d", 6, 0, false,
          ""⟩], 0, 0⟩
        ⟨true, some ⟨404, "nf", none, none⟩, true⟩).1.activeRid =
      (⟨RequestType.GET, "http://d", 6, 0, false, ""⟩ : Request).rid ∧
    (CurlRequests.update
        ⟨"http://c", 5, "", [⟨RequestType.GET, "http://d", 6, 0, false,
          ""⟩], 0, 0⟩
        ⟨true, some ⟨404, "nf", none, none⟩, true⟩).1.requests = [] :=
  http_reject_then_next_starts
    ⟨"http://c", 5, "", [⟨RequestType.GET, "http://d", 6, 0, false, ""⟩],
      0, 0⟩
    ⟨true, some ⟨404, "nf", none, none⟩, true⟩
    ⟨RequestType.GET, "http://d", 6, 0, false, ""⟩ [] ⟨404, "nf", none, none⟩
    (by decide) rfl rfl rfl rfl rfl

/-
  C2 - FIFO servicing of HTTP submissions
-/

/-- A submission made while a transfer is active is appended to the FIFO:
it extends the held-request list at the back and fires nothing. -/
theorem fifo_step_submit (s : CurlState) (r : Request) (ok : Bool)
    (hact : s.url ≠ "") (hurl : r.url ≠ "")
    (hwf : CurlRequests.QueueWF s) :
    CurlRequests.firedRids (CurlRequests.processRequest s r ok).2 ++
        CurlRequests.slotRids (CurlRequests.processRequest s r ok).1 =
      CurlRequests.slotRids s ++ [r.rid] ∧
    CurlRequests.QueueWF (CurlRequests.processRequest s r ok).1 := by
  constructor
  · simp [CurlRequests.processRequest, hact, CurlRequests.firedRids,
      CurlRequests.slotRids, CurlRequests.pendingRids]
  · intro q hq
    simp only [CurlRequests.processRequest, if_pos hact] at hq
    rcases List.mem_append.mp hq with h1 | h1
    · exact hwf q h1
    · rw [List.mem_singleton.mp h1]
      exact hurl

/-- One update tick fires the held requests front-first: the fired tags
followed by the still-held tags are exactly the previously held tags. -/
theorem fifo_step_tick (s : CurlState) (o : CurlRequests.UpdateOracle)
    (hsane : o.msg.isSome = true ∨ o.multiOk = false → s.url ≠ "")
    (hwf : CurlRequests.QueueWF s) :
    CurlRequests.firedRids (CurlRequests.update s o).2 ++
        CurlRequests.slotRids (CurlRequests.update s o).1 =
      CurlRequests.slotRids s ∧
    CurlRequests.QueueWF (CurlRequests.update s o).1 := by
  have hwf_rest : ∀ (r : Request) (rest : List Request),
      s.requests = r :: rest → ∀ q ∈ rest, q.url ≠ "" := by
    intro r rest hreq q hq
    exact hwf q (hreq ▸ List.mem_cons_of_mem r hq)
  by_cases hmf : o.multiOk = false
  · have hact := hsane (Or.inr hmf)
    constructor
    · simp [CurlRequests.update, hmf, CurlRequests.firedRids,
        CurlRequests.slotRids, CurlRequests.pendingRids, Event.rid, hact]
    · intro q hq
      simp only [CurlRequests.update, if_pos hmf] at hq
      exact hwf q hq
  · have hmo : o.multiOk = true := by
      cases hb : o.multiOk
      · exact absurd hb hmf
      · rfl
    cases hm : o.msg with
    | none =>
      cases hreq : s.requests with
      | nil =>
        constructor
        · simp [CurlRequests.update, hmo, hm, hreq, CurlRequests.firedRids,
            CurlRequests.slotRids, CurlRequests.pendingRids]
        · intro q hq
          simp [CurlRequests.update, hmo, hm, hreq] at hq
      | cons r rest =>
        have hrurl : r.url ≠ "" := hwf r (hreq ▸ List.mem_cons_self r rest)
        by_cases hurl : s.url = ""
        · cases hnp : o.nextPerformOk
          · constructor
            · simp [CurlRequests.update, CurlRequests.processRequest, hmo,
                hm, hreq, hurl, hnp, CurlRequests.firedRids,
                CurlRequests.slotRids, CurlRequests.pendingRids, Event.rid]
            · intro q hq
              simp [CurlRequests.update, CurlRequests.processRequest, hmo,
                hm, hreq, hurl, hnp] at hq
              exact hwf_rest r rest hreq q hq
          · constructor
            · simp [CurlRequests.update, CurlRequests.processRequest, hmo,
                hm, hreq, hurl, hnp, CurlRequests.firedRids,
                CurlRequests.slotRids, CurlRequests.pendingRids, Event.rid,
                hrurl]
            · intro q hq
              simp [CurlRequests.update, CurlRequests.processRequest, hmo,
                hm, hreq, hurl, hnp] at hq
              exact hwf_rest r rest hreq q hq
        · constructor
          · simp [CurlRequests.update, hmo, hm, hreq, hurl,
              CurlRequests.firedRids, CurlRequests.slotRids,
              CurlRequests.pendingRids]
          · intro q hq
            simp [CurlRequests.update, hmo, hm, hreq, hurl] at hq
            exact hwf q (hreq ▸ List.mem_cons.mpr hq)
    | some m =>
      have hact : s.url ≠ "" := hsane (Or.inl (by rw [hm]; rfl))
      cases hreq : s.requests with
      | nil =>
        constructor
        · by_cases hstat : m.status = 200 <;>
            simp [CurlRequests.update, hmo, hm, hreq, hstat, hact,
              CurlRequests.firedRids, CurlRequests.slotRids,
              CurlRequests.pendingRids, Event.rid]
        · intro q hq
          by_cases hstat : m.status = 200 <;>
            simp [CurlRequests.update, hmo, hm, hreq, hstat] at hq
      | cons r rest =>
        have hrurl : r.url ≠ "" := hwf r (hreq ▸ List.mem_cons_self r rest)
        constructor
        · by_cases hstat : m.status = 200 <;> cases hnp : o.nextPerformOk <;>
            simp [CurlRequests.update, CurlRequests.processRequest, hmo,
              hm, hreq, hstat, hnp, hact, hrurl, CurlRequests.firedRids,
              CurlRequests.slotRids, CurlRequests.pendingRids, Event.rid]
        · intro q hq
          by_cases hstat : m.status = 200 <;> cases hnp : o.nextPerformOk <;>
            · simp [CurlRequests.update, CurlRequests.processRequest, hmo,
                hm, hreq, hstat, hnp] at hq
              exact hwf_rest r rest hreq q hq

/-- Trace invariant: over any admissible command sequence, the fired
callback tags followed by the still-held tags equal the initially held
tags followed by the submitted tags, in order. -/
theorem run_fifo (s : CurlState) (cmds : List CurlRequests.Cmd)
    (hsane : CurlRequests.Sane s cmds) (hwf : CurlRequests.QueueWF s) :
    CurlRequests.firedRids (CurlRequests.run s cmds).2 ++
        CurlRequests.slotRids (CurlRequests.run s cmds).1 =
      CurlRequests.slotRids s ++ CurlRequests.submittedRids cmds := by
  induction hsane with
  | nil s =>
    simp [CurlRequests.run, CurlRequests.firedRids,
      CurlRequests.submittedRids]
  | submit s r ok cmds hact hurl _hrest ih =>
    obtain ⟨hstep, hwf2⟩ := fifo_step_submit s r ok hact hurl hwf
    have ihh := ih hwf2
    calc CurlRequests.firedRids (CurlRequests.run s
            (CurlRequests.Cmd.submit r ok :: cmds)).2 ++
          CurlRequests.slotRids (CurlRequests.run s
            (CurlRequests.Cmd.submit r ok :: cmds)).1
        = CurlRequests.firedRids (CurlRequests.processRequest s r ok).2 ++
            (CurlRequests.firedRids
                (CurlRequests.run (CurlRequests.processRequest s r ok).1
                  cmds).2 ++
              CurlRequests.slotRids
                (CurlRequests.run (CurlRequests.processRequest s r ok).1
                  cmds).1) := by
          simp [CurlRequests.run, CurlRequests.step,
            CurlRequests.firedRids]
      _ = CurlRequests.firedRids (CurlRequests.processRequest s r ok).2 ++
            (CurlRequests.slotRids (CurlRequests.processRequest s r ok).1 ++
              CurlRequests.submittedRids cmds) := by rw [ihh]
      _ = (CurlRequests.firedRids (CurlRequests.processRequest s r ok).2 ++
            CurlRequests.slotRids (CurlRequests.processRequest s r ok).1) ++
              CurlRequests.submittedRids cmds := by
          rw [List.append_assoc]
      _ = (CurlRequests.slotRids s ++ [r.rid]) ++
            CurlRequests.submittedRids cmds := by rw [hstep]
      _ = CurlRequests.slotRids s ++
            CurlRequests.submittedRids (CurlRequests.Cmd.submit r ok ::
              cmds) := by
          simp [CurlRequests.submittedRids, List.append_assoc]
  | tick s o cmds hs _hrest ih =>
    obtain ⟨hstep, hwf2⟩ := fifo_step_tick s o hs hwf
    have ihh := ih hwf2
    calc CurlRequests.firedRids (CurlRequests.run s
            (CurlRequests.Cmd.tick o :: cmds)).2 ++
          CurlRequests.slotRids (CurlRequests.run s
            (CurlRequests.Cmd.tick o :: cmds)).1
        = CurlRequests.firedRids (CurlRequests.update s o).2 ++
            (CurlRequests.firedRids
                (CurlRequests.run (CurlRequests.update s o).1 cmds).2 ++
              CurlRequests.slotRids
                (CurlRequests.run (CurlRequests.update s o).1 cmds).1) := by
          simp [CurlRequests.run, CurlRequests.step,
            CurlRequests.firedRids]
      _ = CurlRequests.firedRids (CurlRequests.update s o).2 ++
            (CurlRequests.slotRids (CurlRequests.update s o).1 ++
              CurlRequests.submittedRids cmds) := by rw [ihh]
      _ = (CurlRequests.firedRids (CurlRequests.update s o).2 ++
            CurlRequests.slotRids (CurlRequests.update s o).1) ++
              CurlRequests.submittedRids cmds := by rw [List.append_assoc]
      _ = CurlRequests.slotRids s ++
            CurlRequests.submittedRids (CurlRequests.Cmd.tick o :: cmds) := by
          rw [hstep]
          simp [CurlRequests.submittedRids]

/-- Claim C2: over any admissible interaction (submissions made while a
request is active, with well-formed urls, against an environment that
reports completions and failures only for the active transfer), the
callback tags fire exactly as a front prefix of the submission order:
the fired sequence is an initial segment of the held-then-submitted
order, so completion callbacks fire in submission order and the single
active slot serves requests strictly FIFO. -/
theorem http_requests_fifo (s : CurlState)
    (cmds : List CurlRequests.Cmd) (hsane : CurlRequests.Sane s cmds)
    (hwf : CurlRequests.QueueWF s) :
    CurlRequests.firedRids (CurlRequests.run s cmds).2 =
      (CurlRequests.slotRids s ++ CurlRequests.submittedRids cmds).take
        (CurlRequests.firedRids (CurlRequests.run s cmds).2).length := by
  have h := run_fifo s cmds hsane hwf
  rw [← h, List.take_left]

/-- Concrete demo state for the FIFO witness: request 0 is active. -/
def fifoDemoStart : CurlState :=
  ⟨"http://a", 0, "", [], 0, 0⟩

/-- Concrete demo trace for the FIFO witness: request 1 is submitted
while request 0 is active, then two ticks complete both with 200. -/
def fifoDemoCmds : List CurlRequests.Cmd :=
  [CurlRequests.Cmd.submit ⟨RequestType.GET, "http://b", 1, 0, false, ""⟩
      true,
    CurlRequests.Cmd.tick ⟨true, some ⟨200, "ok", none, none⟩, true⟩,
    CurlRequests.Cmd.tick ⟨true, some ⟨200, "okk", none, none⟩, true⟩]

/-- Witness for http_requests_fifo on the concrete demo trace. -/
theorem http_requests_fifo_witness :
    CurlRequests.firedRids (CurlRequests.run fifoDemoStart fifoDemoCmds).2 =
      (CurlRequests.slotRids fifoDemoStart ++
          CurlRequests.submittedRids fifoDemoCmds).take
        (CurlRequests.firedRids
          (CurlRequests.run fifoDemoStart fifoDemoCmds).2).length :=
  http_requests_fifo fifoDemoStart fifoDemoCmds
    (CurlRequests.Sane.submit _ _ _ _ (by decide) (by decide)
      (CurlRequests.Sane.tick _ _ _ (by decide)
        (CurlRequests.Sane.tick _ _ _ (by decide)
          (CurlRequests.Sane.nil _))))
    (fun r hr => absurd hr (List.not_mem_nil r))

end network
